import Mathlib

/-!
Verification development for the go-to-kindle image resolution and inlining
pipeline.  Go strings are modelled as lists of characters so that every
operation is structurally recursive and evaluates inside the kernel.  The
ambient Go standard library (net/url parsing, http content sniffing, base64,
JSON decoding of the data-attrs payload, the image codecs) is modelled by
explicit records of functions; every theorem quantifies over those records,
and concrete instances are supplied only in witnesses.
-/

/-- Go strings, modelled as lists of characters. -/
abbrev Str := List Char

/-- Character list of a Lean string literal (used to write Go string literals). -/
def str (s : String) : Str := s.data

/-- Split on a single-character separator; Go strings.Split semantics for a
one-character separator string. -/
def splitChar (c : Char) : Str → List Str
  | [] => [[]]
  | a :: rest =>
    match splitChar c rest with
    | [] => [[a]]
    | t :: ts => if a = c then [] :: t :: ts else (a :: t) :: ts

/-- Worker for multi-character split.  Fuel at least the length of the string
always suffices, since every step consumes at least one character. -/
def splitSubFuel (sep : Str) : Nat → Str → List Str
  | _, [] => [[]]
  | 0, s => [s]
  | fuel+1, c :: rest =>
    if sep.isPrefixOf (c :: rest) then
      [] :: splitSubFuel sep fuel ((c :: rest).drop sep.length)
    else
      match splitSubFuel sep fuel rest with
      | [] => [[c]]
      | t :: ts => (c :: t) :: ts

/-- Go strings.Split for a non-empty separator (leftmost, non-overlapping). -/
def splitSub (sep s : Str) : List Str :=
  if sep.isEmpty then [s] else splitSubFuel sep s.length s

/-- Go strings.ReplaceAll for a non-empty pattern. -/
def replaceAllSub (sep repl s : Str) : Str :=
  List.intercalate repl (splitSub sep s)

/-- Go strings.Contains. -/
def containsSub (sep : Str) : Str → Bool
  | [] => sep.isEmpty
  | c :: tl => sep.isPrefixOf (c :: tl) || containsSub sep tl

/-- Whitespace as recognized by Go strings.TrimSpace and strings.Fields on
ASCII input. -/
def goIsSpace (c : Char) : Bool :=
  c = ' ' || c = '\t' || c = '\n' || c = '\r' || c = '\x0b' || c = '\x0c'

/-- Go strings.TrimSpace. -/
def goTrimSpace (s : Str) : Str :=
  ((s.dropWhile goIsSpace).reverse.dropWhile goIsSpace).reverse

/-- Go strings.Fields: split around runs of whitespace, dropping empty pieces. -/
def goFields (s : Str) : List Str :=
  (splitChar ' ' (s.map (fun c => if goIsSpace c then ' ' else c))).filter
    (fun t => !t.isEmpty)

/-- Decimal digit test matching the source's isDigits character check. -/
def isDigitCh (c : Char) : Bool := '0' ≤ c && c ≤ '9'

/-- Numeric value of a digit run (most significant first). -/
def digitsVal (s : Str) : Nat :=
  s.foldl (fun acc c => acc * 10 + (c.toNat - '0'.toNat)) 0

/-- Leading integer of a string as scanned by fmt.Sscanf with a %d verb: an
optional sign followed by a digit run; when no digit is present the scan fails
and the destination keeps its zero value. -/
def parseGoInt (s : Str) : Int :=
  match s with
  | '-' :: rest =>
    let ds := rest.takeWhile isDigitCh
    if ds.isEmpty then 0 else -(digitsVal ds : Int)
  | '+' :: rest =>
    let ds := rest.takeWhile isDigitCh
    if ds.isEmpty then 0 else (digitsVal ds : Int)
  | _ =>
    let ds := s.takeWhile isDigitCh
    if ds.isEmpty then 0 else (digitsVal ds : Int)

/-- Parsed URL, as far as the pipeline inspects one: net/url exposes the path
for rewriting while the surrounding components (scheme and host before the
path, query and fragment after it) ride along unchanged; String re-assembles
the three parts. -/
structure GoURL where
  isAbs : Bool
  pre : Str
  path : Str
  post : Str
deriving Repr

/-- Reassembled text of a parsed URL (url.URL.String). -/
def urlString (u : GoURL) : Str := u.pre ++ u.path ++ u.post

/-- The slice of net/url the webarchive lookup relies on: Parse (which can
fail) and ResolveReference.  Theorems quantify over any such record. -/
structure UrlLib where
  parse : Str → Option GoURL
  resolveRef : GoURL → GoURL → GoURL

/-- One embedded archive record (webarchive.Resource): payload bytes, the
original URL, the declared MIME type and the optional text encoding name. -/
structure Resource where
  data : List Nat
  url : Str
  mimeType : Str
  textEncodingName : Str
deriving Repr

/-- The decoded resource table, keyed by exact original URL string.  Go uses a
map; the model keeps insertion order in an association list whose keys are
unique, with lookup returning the first (hence only) binding. -/
abbrev Table := List (Str × Resource)

/-- Map lookup on the resource table. -/
def lookupTable : Table → Str → Option Resource
  | [], _ => none
  | (k, r) :: tl, u => if k = u then some r else lookupTable tl u

/-- Digit-run test (webarchive.isDigits). -/
def isDigits (s : Str) : Bool :=
  if s.isEmpty then false else s.all isDigitCh

/-- Strip a trailing -WIDTHxHEIGHT size suffix from the file name of a path
(webarchive.stripSizeSuffix): the part of the base name after its last dash
must split on a single x into two digit runs. -/
def stripSizeSuffix (path : Str) : Str :=
  let dotParts := splitChar '.' path
  if dotParts.length = 1 then path
  else
    let base := List.intercalate (str ".") dotParts.dropLast
    let ext := str "." ++ dotParts.getLastD []
    let dashParts := splitChar '-' base
    if dashParts.length = 1 then path
    else
      let size := dashParts.getLastD []
      let sizeParts := splitChar 'x' size
      if sizeParts.length ≠ 2 then path
      else if !(isDigits (sizeParts.getD 0 []) && isDigits (sizeParts.getD 1 [])) then path
      else List.intercalate (str "-") dashParts.dropLast ++ ext

/-- Rewrite the CMS content-node segment of a path between its two spellings
(webarchive.withJCRVariant): with useUnderscore the colon spelling becomes the
underscore spelling, otherwise the reverse; none when the source spelling is
absent. -/
def withJCRVariant (parsed : GoURL) (useUnderscore : Bool) : Option GoURL :=
  let path := parsed.path
  if containsSub (str "/_jcr_content/") path && !useUnderscore then
    some { parsed with path := replaceAllSub (str "/_jcr_content/") (str "/jcr:content/") path }
  else if containsSub (str "/jcr:content/") path && useUnderscore then
    some { parsed with path := replaceAllSub (str "/jcr:content/") (str "/_jcr_content/") path }
  else none

/-- Prefix of a path strictly before the first occurrence of a separator, or
the whole path when the separator is absent (strings.Index plus slicing). -/
def beforeFirst (sep path : Str) : Str :=
  if containsSub sep path then (splitSub sep path).headD path else path

/-- State of the best-candidate scan in findResourceByAsset. -/
structure AssetScan where
  best : Resource
  bestLen : Nat

/-- One step of the findResourceByAsset scan: keep only image resources with a
parsable URL whose path extends the asset root, preferring the largest payload. -/
def assetScanStep (lib : UrlLib) (assetRoot : Str) (st : AssetScan) (res : Resource) : AssetScan :=
  if res.url.isEmpty || !((str "image/").isPrefixOf res.mimeType) then st
  else
    match lib.parse res.url with
    | none => st
    | some resURL =>
      if resURL.path.isEmpty then st
      else if !(assetRoot.isPrefixOf resURL.path) then st
      else if res.data.length > st.bestLen then ⟨res, res.data.length⟩ else st

/-- Last-resort asset-root scan (webarchive.findResourceByAsset in the version
of the package that carries the CMS heuristics): truncate the request path at
the first content-node segment, then pick the image resource with the largest
payload among those whose URL path starts with that root. -/
def findResourceByAsset (lib : UrlLib) (parsed : Option GoURL) (resources : Table) :
    Option Resource :=
  match parsed with
  | none => none
  | some p =>
    if p.path.isEmpty then none
    else
      let root1 := beforeFirst (str "/jcr:content/") p.path
      let assetRoot := beforeFirst (str "/_jcr_content/") root1
      let final := (resources.map Prod.snd).foldl (assetScanStep lib assetRoot) ⟨⟨[], [], [], []⟩, 0⟩
      if final.bestLen = 0 then none else some final.best

/-- Heuristic archive lookup (webarchive.resolveResource, the CMS-aware
version): resolve against the base URL and try the exact key, the two
content-node spellings, the same three keys after stripping a size suffix, the
asset-root scan, and finally the raw string as a literal key. -/
def resolveResource (lib : UrlLib) (raw : Str) (baseURL : Option GoURL) (resources : Table) :
    Option Resource :=
  let viaParsed :=
    match lib.parse raw with
    | none => none
    | some p0 =>
      let parsed := if !p0.isAbs then
          match baseURL with
          | some b => lib.resolveRef b p0
          | none => p0
        else p0
      match lookupTable resources (urlString parsed) with
      | some r => some r
      | none =>
      match (withJCRVariant parsed true).bind (fun alt => lookupTable resources (urlString alt)) with
      | some r => some r
      | none =>
      match (withJCRVariant parsed false).bind (fun alt => lookupTable resources (urlString alt)) with
      | some r => some r
      | none =>
      match (if !parsed.path.isEmpty then
          let stripped := stripSizeSuffix parsed.path
          if stripped ≠ parsed.path then
            let alt : GoURL := { parsed with path := stripped }
            match lookupTable resources (urlString alt) with
            | some r => some r
            | none =>
            match (withJCRVariant alt true).bind (fun a2 => lookupTable resources (urlString a2)) with
            | some r => some r
            | none => (withJCRVariant alt false).bind (fun a2 => lookupTable resources (urlString a2))
          else none
        else none) with
      | some r => some r
      | none => findResourceByAsset lib (some parsed) resources
  match viaParsed with
  | some r => some r
  | none => lookupTable resources raw

/-- Decoded in-memory pixel buffer, treated by the pipeline as a black box beyond being passed
between decoder, resize filter and encoder. -/
structure PixImage where
  width : Nat
  height : Nat
deriving Repr

/-- The slice of the Go standard library used by the image transform and data
URL plumbing: http content sniffing, the image codecs behind image.DecodeConfig,
image.Decode and the three encoders, the resize filter, and base64. -/
structure GoStd where
  detectContentType : List Nat → Str
  detectImageFormat : List Nat → Option Str
  decode : List Nat → Option PixImage
  thumbnail : Nat → PixImage → PixImage
  encodeJPEG : Nat → PixImage → Option (List Nat)
  encodePNG : PixImage → Option (List Nat)
  encodeGIF : PixImage → Option (List Nat)
  base64Encode : List Nat → Str
  base64Decode : Str → Option (List Nat)

/-- Bound used by the transform (images.go maxImageDimension). -/
def maxImageDimension : Nat := 300

/-- Image transform (images.go resizeImageBytes): sniff the format, decode,
resize to the bounded thumbnail, then re-encode according to the sniffed
format, JPEG sources at quality 95 and anything outside the encoder set as
JPEG. -/
def resizeImageBytes (g : GoStd) (data : List Nat) (maxDim : Nat) : Option (List Nat × Str) :=
  match g.detectImageFormat data with
  | none => none
  | some format =>
    match g.decode data with
    | none => none
    | some img =>
      let resizedImg := g.thumbnail maxDim img
      let enc : Option (List Nat) × Str :=
        if format = str "jpeg" then (g.encodeJPEG 95 resizedImg, str "jpeg")
        else if format = str "png" then (g.encodePNG resizedImg, str "png")
        else if format = str "gif" then (g.encodeGIF resizedImg, str "gif")
        else if format = str "webp" then (g.encodeJPEG 95 resizedImg, str "jpeg")
        else (g.encodeJPEG 95 resizedImg, str "jpeg")
      match enc.1 with
      | none => none
      | some bytes => some (bytes, enc.2)

/-- Data URL assembly (images.go imageToBase64DataURL). -/
def imageToBase64DataURL (g : GoStd) (data : List Nat) (contentType : Str) : Str :=
  str "data:" ++ contentType ++ str ";base64," ++ g.base64Encode data

/-- Resize then inline as a data URL whose MIME type names the actual output
format (images.go processImageData). -/
def processImageData (g : GoStd) (imageData : List Nat) : Option Str :=
  match resizeImageBytes g imageData maxImageDimension with
  | none => none
  | some (resizedData, outputFormat) =>
    some (imageToBase64DataURL g resizedData (str "image/" ++ outputFormat))

/-- Extract the base64 payload of a data URL (images.go parseBase64DataURL):
split at the first comma, fail when there is none, then base64-decode. -/
def parseBase64DataURL (g : GoStd) (dataURL : Str) : Option (List Nat) :=
  match splitChar ',' dataURL with
  | [] => none
  | [_] => none
  | _ :: rest => g.base64Decode (List.intercalate (str ",") rest)

/-- Re-process an already inlined data URL (images.go processBase64ImageData). -/
def processBase64ImageData (g : GoStd) (src : Str) : Option Str :=
  (parseBase64DataURL g src).bind (processImageData g)

/-- Inline one archive resource as a data URL (webarchive.resourceToDataURL):
the declared MIME type, or the sniffed one when absent, must begin with
image/. -/
def resourceToDataURL (g : GoStd) (res : Resource) : Str × Bool :=
  let mimeType := if res.mimeType.isEmpty then g.detectContentType res.data else res.mimeType
  if !((str "image/").isPrefixOf mimeType) then ([], false)
  else (str "data:" ++ mimeType ++ str ";base64," ++ g.base64Encode res.data, true)

/-- Resolve a source string to an inlined data URL from the resource table
(webarchive.ResolveImageDataURL). -/
def ResolveImageDataURL (lib : UrlLib) (g : GoStd) (raw : Str) (baseURL : Option GoURL)
    (resources : Table) : Str × Bool :=
  match resolveResource lib raw baseURL resources with
  | none => ([], false)
  | some res => resourceToDataURL g res

/-- Outcome of one ImageResolver.ResolveImage call: the Go triple of data URL,
found flag and error. -/
structure ResolveReply where
  dataURL : Str
  found : Bool
  errored : Bool
deriving Repr

/-- WebarchiveImageResolver.ResolveImage without a fallback resolver: a table
miss is reported as found=false with no error; a hit is re-processed through
the transform, whose failure is an error. -/
def webarchiveResolveImageNoFallback (lib : UrlLib) (g : GoStd) (resources : Table)
    (src : Str) (baseURL : Option GoURL) : ResolveReply :=
  let out := ResolveImageDataURL lib g src baseURL resources
  if !out.2 then ⟨[], false, false⟩
  else
    match processBase64ImageData g out.1 with
    | none => ⟨[], false, true⟩
    | some processed => ⟨processed, true, false⟩

/-- Insert records into the resource table, skipping empty URLs and keeping
the first binding on key collision (webarchive.appendResources). -/
def appendResources (dest : Table) (items : List Resource) : Table :=
  items.foldl (fun d res =>
    if res.url.isEmpty then d
    else
      match lookupTable d res.url with
      | some _ => d
      | none => d ++ [(res.url, res)]) dest

/-- Parsed webarchive plist (webarchive.archive): both spellings of the main
resource and subresource keys, plus nested sub-frame archives. -/
inductive Archive where
  | mk (mainResource : Resource) (subresources : List Resource)
      (webMainResource : Resource) (webSubresources : List Resource)
      (webSubframeArchives : List Archive)

/-- Plain subresource list of an archive. -/
def Archive.subresources : Archive → List Resource
  | .mk _ s _ _ _ => s

/-- Web-prefixed subresource list of an archive. -/
def Archive.webSubresources : Archive → List Resource
  | .mk _ _ _ w _ => w

/-- Nested sub-frame archives. -/
def Archive.webSubframeArchives : Archive → List Archive
  | .mk _ _ _ _ f => f

/-- Resource-table construction step of webarchive.DecodeFile: append the
top-level subresources under both key spellings, then those of each sub-frame
archive, flattened into the same table. -/
def collectResources (ar : Archive) : Table :=
  let r0 := appendResources [] ar.subresources
  let r1 := appendResources r0 ar.webSubresources
  ar.webSubframeArchives.foldl
    (fun acc sub => appendResources (appendResources acc sub.subresources) sub.webSubresources) r1

/-- First defined value in a list of attempts. -/
def firstSome : List (Option Resource) → Option Resource
  | [] => none
  | none :: tl => firstSome tl
  | some r :: _ => some r

/-- Exact-key lookup of a parsed URL in the table. -/
def lookupKey (resources : Table) (u : GoURL) : Option Resource :=
  lookupTable resources (urlString u)

/-- The archive lookup heuristic as the specification words it: five steps in
a fixed order, the first hit winning.  Step 1 resolves the string against the
base URL and tries the exact key; step 2 retries with the content-node segment
rewritten to the other spelling; step 3 strips a trailing size suffix from the
file name and retries steps 1 and 2; step 4 scans the table for the largest
image resource under the asset root; step 5 tries the raw string as a literal
key. -/
def fiveStepLookup (lib : UrlLib) (raw : Str) (baseURL : Option GoURL) (resources : Table) :
    Option Resource :=
  let parsedOpt := (lib.parse raw).map (fun p0 =>
    if !p0.isAbs then
      match baseURL with
      | some b => lib.resolveRef b p0
      | none => p0
    else p0)
  let variantHits := fun (u : GoURL) => firstSome
    [(withJCRVariant u true).bind (fun alt => lookupKey resources alt),
     (withJCRVariant u false).bind (fun alt => lookupKey resources alt)]
  let step1 := parsedOpt.bind (fun p => lookupKey resources p)
  let step2 := parsedOpt.bind variantHits
  let step3 := parsedOpt.bind (fun p =>
    let stripped := stripSizeSuffix p.path
    if stripped ≠ p.path then
      let alt : GoURL := { p with path := stripped }
      firstSome [lookupKey resources alt, variantHits alt]
    else none)
  let step4 := parsedOpt.bind (fun p => findResourceByAsset lib (some p) resources)
  let step5 := lookupTable resources raw
  firstSome [step1, step2, step3, step4, step5]

/-- Unfolding lemma: a defined head wins immediately. -/
theorem firstSome_cons_some (r : Resource) (tl : List (Option Resource)) :
    firstSome (some r :: tl) = some r := rfl

/-- Unfolding lemma: an undefined head is skipped. -/
theorem firstSome_cons_none (tl : List (Option Resource)) :
    firstSome (none :: tl) = firstSome tl := rfl

/-- Stripping the size suffix of an empty path is the identity. -/
theorem stripSizeSuffix_nil : stripSizeSuffix [] = [] := rfl

/-- A one-element attempt list is its element. -/
theorem firstSome_singleton (o : Option Resource) : firstSome [o] = o := by
  cases o <;> rfl

/-- The source lookup chain and the five-step description coincide. -/
theorem resolveResource_eq_fiveStep (lib : UrlLib) (raw : Str) (baseURL : Option GoURL)
    (resources : Table) :
    resolveResource lib raw baseURL resources = fiveStepLookup lib raw baseURL resources := by
  unfold resolveResource fiveStepLookup
  cases hp : lib.parse raw with
  | none => simp [firstSome, firstSome_singleton]
  | some p0 =>
    simp only [Option.map_some', Option.some_bind, lookupKey]
    generalize (if !p0.isAbs then
        match baseURL with
        | some b => lib.resolveRef b p0
        | none => p0
      else p0) = parsed
    cases h1 : lookupTable resources (urlString parsed) with
    | some r => simp [firstSome]
    | none =>
    simp only [h1, firstSome_cons_none]
    cases hv1 : (withJCRVariant parsed true).bind (fun alt => lookupTable resources (urlString alt)) with
    | some r => simp [firstSome, hv1]
    | none =>
    cases hv2 : (withJCRVariant parsed false).bind (fun alt => lookupTable resources (urlString alt)) with
    | some r => simp [firstSome, hv1, hv2]
    | none =>
    simp only [hv1, hv2, firstSome_cons_none, firstSome_cons_some]
    obtain ⟨pabs, ppre, ppath, ppost⟩ := parsed
    cases hpath : ppath with
    | nil =>
      simp [firstSome, stripSizeSuffix_nil, findResourceByAsset, firstSome_singleton]
    | cons c tl =>
      simp only [List.isEmpty_cons, Bool.not_false, if_true]
      by_cases hstr : stripSizeSuffix (c :: tl) = c :: tl
      · cases hfa : findResourceByAsset lib
            (some { isAbs := pabs, pre := ppre, path := c :: tl, post := ppost }) resources with
        | some r => simp [hstr, firstSome, hfa]
        | none => simp [hstr, firstSome, hfa, firstSome_singleton]
      · simp only [hstr, if_neg, ne_eq, not_false_eq_true, if_true]
        cases h3a : lookupTable resources
            (urlString { isAbs := pabs, pre := ppre, path := stripSizeSuffix (c :: tl), post := ppost }) with
        | some r => simp [firstSome, h3a]
        | none =>
        cases h3b : (withJCRVariant { isAbs := pabs, pre := ppre, path := stripSizeSuffix (c :: tl), post := ppost } true).bind
            (fun a2 => lookupTable resources (urlString a2)) with
        | some r => simp [firstSome, h3a, h3b]
        | none =>
        cases h3c : (withJCRVariant { isAbs := pabs, pre := ppre, path := stripSizeSuffix (c :: tl), post := ppost } false).bind
            (fun a2 => lookupTable resources (urlString a2)) with
        | some r => simp [firstSome, h3a, h3b, h3c]
        | none =>
        cases ha : findResourceByAsset lib
            (some { isAbs := pabs, pre := ppre, path := c :: tl, post := ppost }) resources with
        | some r => simp [firstSome, h3a, h3b, h3c, ha]
        | none => simp [firstSome, h3a, h3b, h3c, ha, firstSome_singleton]

/-- Concrete URL-library fixture for witnesses: URLs under the demo host parse
into host and path, other non-empty strings parse as relative paths, and the
empty string fails to parse. -/
def demoUrlLib : UrlLib where
  parse := fun s =>
    if (str "http://e").isPrefixOf s then some ⟨true, str "http://e", s.drop 8, []⟩
    else if s.isEmpty then none
    else some ⟨false, [], s, []⟩
  resolveRef := fun base u => { isAbs := true, pre := base.pre, path := u.path, post := u.post }

/-- Concrete standard-library fixture for witnesses: byte value 1 sniffs as
PNG, 2 as GIF, 3 as JPEG, 4 as WebP; encoders emit fixed tag bytes; base64 is
a length encoding. -/
def demoStd : GoStd where
  detectContentType := fun data =>
    if data = [137, 80, 78, 71] then str "image/png" else str "application/octet-stream"
  detectImageFormat := fun data =>
    if data.headD 0 = 1 then some (str "png")
    else if data.headD 0 = 2 then some (str "gif")
    else if data.headD 0 = 3 then some (str "jpeg")
    else if data.headD 0 = 4 then some (str "webp")
    else none
  decode := fun data => if data.isEmpty then none else some ⟨data.length, 1⟩
  thumbnail := fun _ img => img
  encodeJPEG := fun _ _ => some [3, 0]
  encodePNG := fun _ => some [1, 0]
  encodeGIF := fun _ => some [2, 0]
  base64Encode := fun data => List.replicate data.length 'A'
  base64Decode := fun s => if s.isEmpty then none else some (List.replicate s.length 1)

/-- C3: for every source string, base URL and resource table, the archive
lookup tries exactly the five specified steps in a fixed order with the first
hit winning, and absence of any match is a non-error negative result: the
lookup itself returns no resource and the fallbackless archive resolver
reports found=false with no error. -/
theorem c3_archive_lookup_five_steps :
    (∀ (lib : UrlLib) (raw : Str) (baseURL : Option GoURL) (resources : Table),
      resolveResource lib raw baseURL resources = fiveStepLookup lib raw baseURL resources) ∧
    (∀ (lib : UrlLib) (g : GoStd) (resources : Table) (raw : Str) (baseURL : Option GoURL),
      resolveResource lib raw baseURL resources = none →
      webarchiveResolveImageNoFallback lib g resources raw baseURL = ⟨[], false, false⟩) := by
  refine ⟨resolveResource_eq_fiveStep, ?_⟩
  intro lib g resources raw baseURL h
  simp [webarchiveResolveImageNoFallback, ResolveImageDataURL, h]

/-- C3 witness: on an empty table the lookup misses and the archive resolver
reports a found=false, error-free outcome. -/
theorem c3_witness :
    resolveResource demoUrlLib (str "http://e/x.png") none [] = none ∧
    webarchiveResolveImageNoFallback demoUrlLib demoStd [] (str "http://e/x.png") none =
      ⟨[], false, false⟩ := by
  refine ⟨rfl, c3_archive_lookup_five_steps.2 demoUrlLib demoStd [] (str "http://e/x.png") none rfl⟩

/-- Invariant of the asset scan state: either nothing selected yet, or the
candidate is an image resource whose payload length matches the recorded best
length and is positive. -/
def AssetScanInv (st : AssetScan) : Prop :=
  st.bestLen = 0 ∨
    ((str "image/").isPrefixOf st.best.mimeType = true ∧
      st.bestLen = st.best.data.length ∧ 0 < st.bestLen)

/-- The scan step preserves the asset scan invariant. -/
theorem assetScanStep_inv (lib : UrlLib) (root : Str) (st : AssetScan) (res : Resource)
    (h : AssetScanInv st) : AssetScanInv (assetScanStep lib root st res) := by
  unfold assetScanStep
  by_cases hskip : (res.url.isEmpty || !((str "image/").isPrefixOf res.mimeType)) = true
  · rw [if_pos hskip]; exact h
  · rw [if_neg hskip]
    simp only [Bool.or_eq_true, Bool.not_eq_true', not_or, Bool.not_eq_false] at hskip
    split
    · exact h
    · split_ifs with h1 h2 h3
      · exact h
      · exact h
      · refine Or.inr ⟨hskip.2, rfl, ?_⟩
        show 0 < res.data.length
        omega
      · exact h

/-- The fold of scan steps preserves the invariant. -/
theorem assetScan_foldl_inv (lib : UrlLib) (root : Str) (l : List Resource) (st : AssetScan)
    (h : AssetScanInv st) : AssetScanInv (l.foldl (assetScanStep lib root) st) := by
  induction l generalizing st with
  | nil => exact h
  | cons r tl ih => exact ih _ (assetScanStep_inv lib root st r h)

/-- C9: in the asset-root fallback step, only resources whose stored MIME type
begins with image/ and whose payload is non-empty are ever selected; in
particular a resource with an absent MIME type is never selected by this step,
the byte-header sniffing of resourceToDataURL not being applied during the
scan. -/
theorem c9_asset_scan_candidates :
    ∀ (lib : UrlLib) (parsed : Option GoURL) (resources : Table) (res : Resource),
      findResourceByAsset lib parsed resources = some res →
      (str "image/").isPrefixOf res.mimeType = true ∧ res.mimeType ≠ [] ∧ res.data ≠ [] := by
  intro lib parsed resources res h
  cases parsed with
  | none => simp [findResourceByAsset] at h
  | some p =>
    rw [findResourceByAsset] at h
    by_cases h1 : p.path.isEmpty = true
    · rw [if_pos h1] at h; cases h
    · rw [if_neg h1] at h
      simp only [] at h
      have hinv := assetScan_foldl_inv lib
        (beforeFirst (str "/_jcr_content/") (beforeFirst (str "/jcr:content/") p.path))
        (resources.map Prod.snd) ⟨⟨[], [], [], []⟩, 0⟩ (Or.inl rfl)
      split at h
      · cases h
      · rename_i h2
        injection h with h3
        rcases hinv with h0 | ⟨hm, hlen, hpos⟩
        · exact absurd h0 h2
        · subst h3
          refine ⟨hm, ?_, ?_⟩
          · intro he
            rw [he] at hm
            simp [str] at hm
          · intro he
            rw [he] at hlen
            simp at hlen
            omega

/-- C9 witness: a labelled image resource under the asset root is selected and
satisfies the candidate conditions, while an unlabelled resource whose bytes
would sniff as PNG is skipped by the scan even though direct inlining would
accept it. -/
theorem c9_witness :
    findResourceByAsset demoUrlLib (some ⟨true, str "http://e", str "/a/jcr:content/x.png", []⟩)
      [(str "http://e/a/big.png", ⟨[9, 9], str "http://e/a/big.png", str "image/png", []⟩)] =
      some ⟨[9, 9], str "http://e/a/big.png", str "image/png", []⟩ ∧
    ((str "image/").isPrefixOf (str "image/png") = true ∧ str "image/png" ≠ [] ∧
      ([9, 9] : List Nat) ≠ []) ∧
    findResourceByAsset demoUrlLib (some ⟨true, str "http://e", str "/a/jcr:content/x.png", []⟩)
      [(str "http://e/a/snf.png", ⟨[137, 80, 78, 71], str "http://e/a/snf.png", [], []⟩)] =
      none ∧
    resourceToDataURL demoStd ⟨[137, 80, 78, 71], str "http://e/a/snf.png", [], []⟩ =
      (str "data:image/png;base64,AAAA", true) := by
  refine ⟨rfl, c9_asset_scan_candidates demoUrlLib
    (some ⟨true, str "http://e", str "/a/jcr:content/x.png", []⟩)
    [(str "http://e/a/big.png", ⟨[9, 9], str "http://e/a/big.png", str "image/png", []⟩)]
    ⟨[9, 9], str "http://e/a/big.png", str "image/png", []⟩ rfl, rfl, rfl⟩

/-- A defined head followed by anything is the head. -/
theorem firstSome_pair_some (r : Resource) (b : Option Resource) :
    firstSome [some r, b] = some r := rfl

/-- An undefined head defers to the second attempt. -/
theorem firstSome_pair_none (b : Option Resource) : firstSome [none, b] = firstSome [b] := rfl

/-- First record with the requested (non-empty) URL in a record list; this is
the specification reading of the decode invariant: each URL maps to the first
resource encountered in traversal order. -/
def firstOccurrence : List Resource → Str → Option Resource
  | [], _ => none
  | r :: tl, u => if r.url ≠ [] ∧ r.url = u then some r else firstOccurrence tl u

/-- Table lookup distributes over append, earlier bindings winning. -/
theorem lookupTable_append (t1 t2 : Table) (u : Str) :
    lookupTable (t1 ++ t2) u = firstSome [lookupTable t1 u, lookupTable t2 u] := by
  induction t1 with
  | nil => cases h : lookupTable t2 u <;> simp [lookupTable, firstSome, h]
  | cons kv tl ih =>
    obtain ⟨k, r⟩ := kv
    by_cases hk : k = u
    · simp [lookupTable, hk, firstSome]
    · simp [lookupTable, hk, ih]

/-- First-occurrence search distributes over append. -/
theorem firstOccurrence_append (l1 l2 : List Resource) (u : Str) :
    firstOccurrence (l1 ++ l2) u = firstSome [firstOccurrence l1 u, firstOccurrence l2 u] := by
  induction l1 with
  | nil => cases h : firstOccurrence l2 u <;> simp [firstOccurrence, firstSome, h]
  | cons r tl ih =>
    by_cases hr : r.url ≠ [] ∧ r.url = u
    · obtain ⟨hne, hequ⟩ := hr
      subst hequ
      simp [firstOccurrence, hne, firstSome]
    · simp [firstOccurrence, hr, ih]

/-- Looking up after appendResources: existing bindings win, then the first
occurrence among the appended records. -/
theorem lookupTable_appendResources (items : List Resource) (d : Table) (u : Str) :
    lookupTable (appendResources d items) u =
      firstSome [lookupTable d u, firstOccurrence items u] := by
  induction items generalizing d with
  | nil =>
    cases h : lookupTable d u <;> simp [appendResources, firstOccurrence, firstSome, h]
  | cons r tl ih =>
    have hstep : appendResources d (r :: tl) =
        appendResources (if r.url.isEmpty then d
          else match lookupTable d r.url with
            | some _ => d
            | none => d ++ [(r.url, r)]) tl := rfl
    rw [hstep]
    by_cases hu : r.url.isEmpty = true
    · rw [if_pos hu, ih]
      have : (r.url ≠ [] ∧ r.url = u) = False := by
        simp only [List.isEmpty_iff] at hu
        simp [hu]
      simp [firstOccurrence, this]
    · rw [if_neg hu]
      simp only [List.isEmpty_iff] at hu
      cases hd : lookupTable d r.url with
      | some r0 =>
        rw [ih]
        by_cases hru : r.url = u
        · subst hru
          simp [firstOccurrence, hu, hd, firstSome]
        · have : (r.url ≠ [] ∧ r.url = u) = False := by simp [hru]
          simp [firstOccurrence, this]
      | none =>
        rw [ih, lookupTable_append]
        by_cases hru : r.url = u
        · subst hru
          simp [lookupTable, firstOccurrence, hu, hd, firstSome]
        · have h1 : (r.url ≠ [] ∧ r.url = u) = False := by simp [hru]
          have h2 : lookupTable [(r.url, r)] u = none := by simp [lookupTable, hru]
          cases hlu : lookupTable d u <;>
            simp [firstOccurrence, h1, h2, firstSome, hlu]

/-- Subresource records of a list of sub-frame archives, in traversal order
(each frame contributing both key spellings, flattened). -/
def framesResources : List Archive → List Resource
  | [] => []
  | f :: tl => f.subresources ++ f.webSubresources ++ framesResources tl

/-- All records DecodeFile appends, in traversal order: top-level subresources
under both key spellings, then each sub-frame archive's. -/
def archiveTraversal (ar : Archive) : List Resource :=
  ar.subresources ++ ar.webSubresources ++ framesResources ar.webSubframeArchives

/-- Lookup after folding the sub-frame archives into the table. -/
theorem lookupTable_subframes (frames : List Archive) (acc : Table) (u : Str) :
    lookupTable (frames.foldl
        (fun a sub => appendResources (appendResources a sub.subresources) sub.webSubresources)
        acc) u =
      firstSome [lookupTable acc u, firstOccurrence (framesResources frames) u] := by
  induction frames generalizing acc with
  | nil =>
    cases h : lookupTable acc u <;> simp [framesResources, firstOccurrence, firstSome, h]
  | cons f tl ih =>
    rw [List.foldl_cons, ih, lookupTable_appendResources, lookupTable_appendResources]
    show _ = firstSome [lookupTable acc u,
      firstOccurrence (f.subresources ++ f.webSubresources ++ framesResources tl) u]
    rw [firstOccurrence_append, firstOccurrence_append]
    cases h1 : lookupTable acc u <;>
      cases h2 : firstOccurrence f.subresources u <;>
        cases h3 : firstOccurrence f.webSubresources u <;>
          cases h4 : firstOccurrence (framesResources tl) u <;>
            simp [firstSome]

/-- C6: for every archive whose records contain duplicate URL keys, including
across nested sub-frame archives flattened into the same table, the decoded
resource table maps each URL to the first resource encountered in traversal
order; later duplicates are silently dropped and table construction is total. -/
theorem c6_duplicate_urls_first_wins :
    ∀ (ar : Archive) (u : Str),
      lookupTable (collectResources ar) u = firstOccurrence (archiveTraversal ar) u := by
  intro ar u
  cases ar with
  | mk mainR subs webMain webs frames =>
    unfold collectResources archiveTraversal
    rw [lookupTable_subframes, lookupTable_appendResources, lookupTable_appendResources]
    simp only [Archive.subresources, Archive.webSubresources, Archive.webSubframeArchives]
    rw [firstOccurrence_append, firstOccurrence_append]
    cases h1 : firstOccurrence subs u <;>
      cases h2 : firstOccurrence webs u <;>
        cases h3 : firstOccurrence (framesResources frames) u <;>
          simp [firstSome, lookupTable, h1, h2, h3]

/-- Re-encode target for a sniffed source format: PNG stays PNG, GIF stays
GIF, everything else (JPEG, WebP, any other decodable format) encodes as JPEG. -/
def encodeTarget (format : Str) : Str :=
  if format = str "png" then str "png"
  else if format = str "gif" then str "gif"
  else str "jpeg"

/-- Full behavioural description of a successful transform: the sniff and the
decode succeeded, the output format is the re-encode target of the sniffed
format, JPEG output comes from the quality-95 encoder on the resized image,
and the output format is one of the three encoder formats. -/
theorem resizeImageBytes_spec (g : GoStd) (data : List Nat) (maxDim : Nat) (out : List Nat)
    (fmt : Str) (h : resizeImageBytes g data maxDim = some (out, fmt)) :
    ∃ f img, g.detectImageFormat data = some f ∧ g.decode data = some img ∧
      fmt = encodeTarget f ∧
      (fmt = str "jpeg" → g.encodeJPEG 95 (g.thumbnail maxDim img) = some out) ∧
      (fmt = str "png" ∨ fmt = str "gif" ∨ fmt = str "jpeg") := by
  unfold resizeImageBytes at h
  cases hf : g.detectImageFormat data with
  | none => rw [hf] at h; cases h
  | some f =>
    rw [hf] at h
    cases hd : g.decode data with
    | none => rw [hd] at h; cases h
    | some img =>
      rw [hd] at h
      simp only [] at h
      refine ⟨f, img, rfl, rfl, ?_⟩
      split_ifs at h with h1 h2 h3 h4
      · cases henc : g.encodeJPEG 95 (g.thumbnail maxDim img) with
        | none => rw [henc] at h; cases h
        | some bytes =>
          rw [henc] at h
          simp only [Option.some.injEq, Prod.mk.injEq] at h
          obtain ⟨rfl, rfl⟩ := h
          exact ⟨by rw [h1]; rfl, fun _ => rfl, Or.inr (Or.inr rfl)⟩
      · cases henc : g.encodePNG (g.thumbnail maxDim img) with
        | none => rw [henc] at h; cases h
        | some bytes =>
          rw [henc] at h
          simp only [Option.some.injEq, Prod.mk.injEq] at h
          obtain ⟨rfl, rfl⟩ := h
          exact ⟨by rw [h2]; rfl, fun hbad => absurd hbad (by decide), Or.inl rfl⟩
      · cases henc : g.encodeGIF (g.thumbnail maxDim img) with
        | none => rw [henc] at h; cases h
        | some bytes =>
          rw [henc] at h
          simp only [Option.some.injEq, Prod.mk.injEq] at h
          obtain ⟨rfl, rfl⟩ := h
          exact ⟨by rw [h3]; rfl, fun hbad => absurd hbad (by decide), Or.inr (Or.inl rfl)⟩
      · cases henc : g.encodeJPEG 95 (g.thumbnail maxDim img) with
        | none => rw [henc] at h; cases h
        | some bytes =>
          rw [henc] at h
          simp only [Option.some.injEq, Prod.mk.injEq] at h
          obtain ⟨rfl, rfl⟩ := h
          refine ⟨?_, fun _ => rfl, Or.inr (Or.inr rfl)⟩
          unfold encodeTarget
          rw [if_neg h2, if_neg h3]
      · cases henc : g.encodeJPEG 95 (g.thumbnail maxDim img) with
        | none => rw [henc] at h; cases h
        | some bytes =>
          rw [henc] at h
          simp only [Option.some.injEq, Prod.mk.injEq] at h
          obtain ⟨rfl, rfl⟩ := h
          refine ⟨?_, fun _ => rfl, Or.inr (Or.inr rfl)⟩
          unfold encodeTarget
          rw [if_neg h2, if_neg h3]

/-- C5: for every byte input accepted by the transform, the output format is a
function of the sniffed source format - PNG stays PNG, GIF stays GIF, JPEG and
every other decodable or unmatched sniffed format re-encode as quality-95 JPEG
- and every data URI produced by a successful resolution carries a MIME type
naming one of the three re-encoded output formats, never a pre-transform type. -/
theorem c5_transform_output_formats :
    (∀ (g : GoStd) (data : List Nat) (maxDim : Nat) (out : List Nat) (fmt : Str),
      resizeImageBytes g data maxDim = some (out, fmt) →
      ∃ f img, g.detectImageFormat data = some f ∧ g.decode data = some img ∧
        fmt = encodeTarget f ∧
        (fmt = str "jpeg" → g.encodeJPEG 95 (g.thumbnail maxDim img) = some out) ∧
        (fmt = str "png" ∨ fmt = str "gif" ∨ fmt = str "jpeg")) ∧
    (∀ (g : GoStd) (data : List Nat) (u : Str),
      processImageData g data = some u →
      ∃ bytes fmt, resizeImageBytes g data maxImageDimension = some (bytes, fmt) ∧
        (fmt = str "png" ∨ fmt = str "gif" ∨ fmt = str "jpeg") ∧
        u = imageToBase64DataURL g bytes (str "image/" ++ fmt)) := by
  refine ⟨resizeImageBytes_spec, ?_⟩
  intro g data u h
  unfold processImageData at h
  cases hr : resizeImageBytes g data maxImageDimension with
  | none => rw [hr] at h; cases h
  | some pair =>
    obtain ⟨bytes, fmt⟩ := pair
    rw [hr] at h
    simp only [Option.some.injEq] at h
    obtain ⟨f, img, hf, hd, hfmt, hjpeg, hmem⟩ := resizeImageBytes_spec g data _ bytes fmt hr
    exact ⟨bytes, fmt, rfl, hmem, h.symm⟩

/-- C5 witness: a GIF-sniffed input stays GIF through the transform and its
data URI carries the image/gif MIME type. -/
theorem c5_witness :
    (∃ f img, demoStd.detectImageFormat [2] = some f ∧ demoStd.decode [2] = some img ∧
      str "gif" = encodeTarget f ∧
      (str "gif" = str "jpeg" →
        demoStd.encodeJPEG 95 (demoStd.thumbnail maxImageDimension img) = some [2, 0]) ∧
      (str "gif" = str "png" ∨ str "gif" = str "gif" ∨ str "gif" = str "jpeg")) ∧
    (∃ bytes fmt, resizeImageBytes demoStd [2] maxImageDimension = some (bytes, fmt) ∧
      (fmt = str "png" ∨ fmt = str "gif" ∨ fmt = str "jpeg") ∧
      str "data:image/gif;base64,AA" = imageToBase64DataURL demoStd bytes (str "image/" ++ fmt)) := by
  refine ⟨c5_transform_output_formats.1 demoStd [2] maxImageDimension [2, 0] (str "gif") rfl,
    c5_transform_output_formats.2 demoStd [2] (str "data:image/gif;base64,AA") rfl⟩

/-- HTML DOM node: element with tag, attribute list and children, or text. -/
inductive Node where
  | text (s : Str)
  | elem (tag : Str) (attrs : List (Str × Str)) (children : List Node)

/-- Attribute list of an element, in document order. -/
abbrev Attrs := List (Str × Str)

/-- goquery Attr: the first attribute with the given name. -/
def getAttr : Attrs → Str → Option Str
  | [], _ => none
  | (k, v) :: tl, n => if k = n then some v else getAttr tl n

/-- goquery SetAttr: overwrite the first attribute with the name, or append. -/
def setAttr : Attrs → Str → Str → Attrs
  | [], n, v => [(n, v)]
  | (k, w) :: tl, n, v => if k = n then (n, v) :: tl else (k, w) :: setAttr tl n v

/-- goquery RemoveAttr: drop every attribute with the name. -/
def removeAttr : Attrs → Str → Attrs
  | [], _ => []
  | (k, v) :: tl, n => if k = n then removeAttr tl n else (k, v) :: removeAttr tl n

/-- Fields of the Substack data-attrs JSON payload (absent fields decode to
the empty string, as Go's zero value). -/
structure DataAttrs where
  src : Str
  srcNoWatermark : Str

/-- Ambient dependencies of the DOM rewriter: the transform library, the
resolver handed to processContent (none models a nil resolver), the JSON
decoder for the data-attrs payload (none models an unmarshal error) and
html.UnescapeString. -/
structure Env where
  g : GoStd
  resolver : Option (Str → ResolveReply)
  jsonDataAttrs : Str → Option DataAttrs
  unescape : Str → Str

/-- Substack data-attrs extraction (images.go extractURLFromDataAttrs):
unescape, JSON-decode, prefer the no-watermark URL. -/
def extractURLFromDataAttrs (env : Env) (dataAttr : Str) : Str :=
  match env.jsonDataAttrs (env.unescape dataAttr) with
  | none => []
  | some attrs => if !attrs.srcNoWatermark.isEmpty then attrs.srcNoWatermark else attrs.src

/-- Declared width of a srcset entry, via the Sscanf %dw scan applied when the
second field ends in w. -/
def srcsetEntryWidth (fields : List Str) : Int :=
  match fields with
  | _ :: f1 :: _ => if (str "w").isSuffixOf f1 then parseGoInt f1 else 0
  | _ => 0

/-- Largest-width selection from a srcset (images.go pickBestFromSrcset):
entries without a width descriptor count as width zero, the running best
starts below zero, and a tie keeps the earlier entry. -/
def pickBestFromSrcset (srcset : Str) : Str :=
  ((splitChar ',' srcset).foldl (fun st part =>
    let part := goTrimSpace part
    let fields := goFields part
    match fields with
    | [] => st
    | u :: _ =>
      let w := srcsetEntryWidth fields
      let st1 := if w > st.2 then (u, w) else st
      if st1.1.isEmpty then (u, st1.2) else st1) ([], (-1 : Int))).1

/-- Candidate resolution in the picture pass (images.go tryResolve): an empty
candidate fails, an inline data URI is re-processed, otherwise the resolver is
consulted and an error or a miss fails. -/
def tryResolve (env : Env) (raw : Str) : Option Str :=
  if raw.isEmpty then none
  else if (str "data:image/").isPrefixOf raw then processBase64ImageData env.g raw
  else
    match env.resolver with
    | none => none
    | some resolve =>
      let reply := resolve raw
      if reply.errored || !reply.found then none else some reply.dataURL

/-- First candidate accepted by tryResolve. -/
def firstResolved (env : Env) : List Str → Option Str
  | [] => none
  | cand :: tl =>
    match tryResolve env cand with
    | some d => some d
    | none => firstResolved env tl

/-- Candidates contributed by the nested img of a picture, in source order:
data-attrs URL, then largest-width srcset entry (when the srcset is not
blank), then src. -/
def pictureImgCandidates (env : Env) (img : Attrs) : List Str :=
  (match getAttr img (str "data-attrs") with
   | some da =>
     let u := extractURLFromDataAttrs env da
     if !u.isEmpty then [u] else []
   | none => []) ++
  (match getAttr img (str "srcset") with
   | some ss =>
     if !(goTrimSpace ss).isEmpty then
       let u := pickBestFromSrcset ss
       if !u.isEmpty then [u] else []
     else []
   | none => []) ++
  (match getAttr img (str "src") with
   | some sv => if !sv.isEmpty then [sv] else []
   | none => [])

/-- Candidates contributed by one source element of a picture: largest-width
srcset entry (when the srcset attribute is non-empty), then src. -/
def pictureSourceCandidates (srcAttrs : Attrs) : List Str :=
  (match getAttr srcAttrs (str "srcset") with
   | some ss =>
     if !ss.isEmpty then
       let u := pickBestFromSrcset ss
       if !u.isEmpty then [u] else []
     else []
   | none => []) ++
  (match getAttr srcAttrs (str "src") with
   | some sv => if !sv.isEmpty then [sv] else []
   | none => [])

/-- Collapse one picture element (body of the Each loop in images.go
processPictureElements) given the attributes of its first nested img, if any,
and of its nested source elements: gather candidates in priority order, and
either produce the replacement img attribute list (inlined src, original alt
when non-empty, processed marker) or none for removal. -/
def processOnePicture (env : Env) (imgOpt : Option Attrs) (sources : List Attrs) :
    Option Attrs :=
  let alt := match imgOpt with
    | some img => (getAttr img (str "alt")).getD []
    | none => []
  let candidates :=
    (match imgOpt with
     | some img => pictureImgCandidates env img
     | none => []) ++ (sources.map pictureSourceCandidates).flatten
  if candidates.isEmpty then none
  else
    match firstResolved env candidates with
    | none => none
    | some dataURL =>
      some ([(str "src", dataURL)] ++ (if !alt.isEmpty then [(str "alt", alt)] else []) ++
        [(str "data-processed", str "1")])

/-- Attribute stripping applied to processed imgs (images.go
removeImageAttributes): size, styling and known CMS attributes. -/
def removeImageAttributes (attrs : Attrs) : Attrs :=
  removeAttr (removeAttr (removeAttr (removeAttr (removeAttr (removeAttr (removeAttr (removeAttr
    (removeAttr (removeAttr (removeAttr attrs
      (str "srcset")) (str "sizes")) (str "loading")) (str "width")) (str "height"))
      (str "style")) (str "class")) (str "data-attrs")) (str "data-orig-size"))
      (str "data-medium-file")) (str "data-large-file")

/-- Candidate resolution in the img pass: an inline data URI is re-processed,
otherwise the resolver is consulted when present; error-free found replies
succeed. -/
def imgTryResolve (env : Env) (cand : Str) : Option Str :=
  if (str "data:image/").isPrefixOf cand then processBase64ImageData env.g cand
  else
    match env.resolver with
    | none => none
    | some resolve =>
      let reply := resolve cand
      if !reply.errored && reply.found then some reply.dataURL else none

/-- First candidate accepted in the img pass. -/
def firstResolvedImg (env : Env) : List Str → Option Str
  | [] => none
  | cand :: tl =>
    match imgTryResolve env cand with
    | some d => some d
    | none => firstResolvedImg env tl

/-- Process one img element (body of the Each loop in images.go
processImageElements): an img already carrying the processed marker is only
stripped of listed attributes and of the marker, without consulting the
resolver; otherwise the data-attrs URL then the src are tried, a success
rewrites src in place and strips attributes, and a failure or lack of
candidates removes the element.  The second component counts toward the
processed-image total. -/
def processOneImg (env : Env) (attrs : Attrs) : Option Attrs × Nat :=
  if getAttr attrs (str "data-processed") = some (str "1") then
    (some (removeAttr (removeImageAttributes attrs) (str "data-processed")), 0)
  else
    let candidates :=
      (match getAttr attrs (str "data-attrs") with
       | some da =>
         let u := extractURLFromDataAttrs env da
         if !u.isEmpty then [u] else []
       | none => []) ++
      (match getAttr attrs (str "src") with
       | some sv => if !sv.isEmpty then [sv] else []
       | none => [])
    if candidates.isEmpty then (none, 0)
    else
      match firstResolvedImg env candidates with
      | none => (none, 0)
      | some dataURL => (some (removeImageAttributes (setAttr attrs (str "src") dataURL)), 1)

/-- Effective srcset string of a lone source element: the srcset attribute
when not blank, else the src attribute when not blank, else nothing. -/
def loneSourceList (attrs : Attrs) : Option Str :=
  let fallbackSrc := match getAttr attrs (str "src") with
    | some sv => if !(goTrimSpace sv).isEmpty then some sv else none
    | none => none
  match getAttr attrs (str "srcset") with
  | some ss => if !(goTrimSpace ss).isEmpty then some ss else fallbackSrc
  | none => fallbackSrc

/-- Process one source element outside a picture (body of the Each loop in
images.go processLoneSourceElements): take the first URL of the first srcset
entry, re-process it when it is an inline data URI, otherwise call the
resolver, discarding its found flag; any error-free outcome becomes the src of
a replacement img, and an error or a nil resolver removes the element. -/
def processOneLoneSource (env : Env) (attrs : Attrs) : Option Str :=
  match loneSourceList attrs with
  | none => none
  | some srcset =>
    match splitChar ',' srcset with
    | [] => none
    | u0 :: _ =>
      let firstURL := goTrimSpace ((splitChar ' ' u0).headD [])
      if (str "data:image/").isPrefixOf firstURL then
        processBase64ImageData env.g firstURL
      else
        match env.resolver with
        | none => none
        | some resolve =>
          let reply := resolve firstURL
          if reply.errored then none else some reply.dataURL

mutual

/-- Attribute lists of all descendant elements with the tag, document order
(goquery Find within an element). -/
def findAttrsByTag (tag : Str) : Node → List Attrs
  | .text _ => []
  | .elem t a cs => (if t = tag then [a] else []) ++ findAttrsByTagL tag cs

/-- Attribute lists of elements with the tag in a forest, document order. -/
def findAttrsByTagL (tag : Str) : List Node → List Attrs
  | [] => []
  | n :: ns => findAttrsByTag tag n ++ findAttrsByTagL tag ns

end

mutual

/-- Picture pass over one node (images.go processPictureElements): every
picture is replaced by its collapsed img or dropped; other nodes recurse. -/
def processPictureNode (env : Env) : Node → List Node × Nat
  | .text s => ([.text s], 0)
  | .elem t a cs =>
    if t = str "picture" then
      match processOnePicture env ((findAttrsByTagL (str "img") cs).head?)
          (findAttrsByTagL (str "source") cs) with
      | none => ([], 0)
      | some newAttrs => ([.elem (str "img") newAttrs []], 1)
    else
      let r := processPictureNodeL env cs
      ([.elem t a r.1], r.2)

/-- Picture pass over a forest. -/
def processPictureNodeL (env : Env) : List Node → List Node × Nat
  | [] => ([], 0)
  | n :: ns =>
    let r1 := processPictureNode env n
    let r2 := processPictureNodeL env ns
    (r1.1 ++ r2.1, r1.2 + r2.2)

end

/-- Picture pass over the document (images.go processPictureElements). -/
def processPictureElements (env : Env) (doc : List Node) : List Node × Nat :=
  processPictureNodeL env doc

mutual

/-- Img pass over one node (images.go processImageElements). -/
def processImageNode (env : Env) : Node → List Node × Nat
  | .text s => ([.text s], 0)
  | .elem t a cs =>
    if t = str "img" then
      match processOneImg env a with
      | (none, _) => ([], 0)
      | (some newAttrs, k) =>
        let r := processImageNodeL env cs
        ([.elem (str "img") newAttrs r.1], k + r.2)
    else
      let r := processImageNodeL env cs
      ([.elem t a r.1], r.2)

/-- Img pass over a forest. -/
def processImageNodeL (env : Env) : List Node → List Node × Nat
  | [] => ([], 0)
  | n :: ns =>
    let r1 := processImageNode env n
    let r2 := processImageNodeL env ns
    (r1.1 ++ r2.1, r1.2 + r2.2)

end

/-- Img pass over the document (images.go processImageElements). -/
def processImageElements (env : Env) (doc : List Node) : List Node × Nat :=
  processImageNodeL env doc

mutual

/-- Lone-source pass over one node (images.go processLoneSourceElements):
source elements with a picture ancestor are skipped; others are replaced by an
img or removed. -/
def processLoneSourceNode (env : Env) (insidePicture : Bool) : Node → List Node × Nat
  | .text s => ([.text s], 0)
  | .elem t a cs =>
    if t = str "source" then
      if insidePicture then ([.elem t a cs], 0)
      else
        match processOneLoneSource env a with
        | none => ([], 0)
        | some dataURL => ([.elem (str "img") [(str "src", dataURL)] []], 1)
    else
      let r := processLoneSourceNodeL env (insidePicture || t = str "picture") cs
      ([.elem t a r.1], r.2)

/-- Lone-source pass over a forest. -/
def processLoneSourceNodeL (env : Env) (insidePicture : Bool) : List Node → List Node × Nat
  | [] => ([], 0)
  | n :: ns =>
    let r1 := processLoneSourceNode env insidePicture n
    let r2 := processLoneSourceNodeL env insidePicture ns
    (r1.1 ++ r2.1, r1.2 + r2.2)

end

/-- Lone-source pass over the document (images.go processLoneSourceElements). -/
def processLoneSourceElements (env : Env) (doc : List Node) : List Node × Nat :=
  processLoneSourceNodeL env false doc

mutual

/-- Remove every element whose tag is in the list, with its subtree
(goquery Find(tags).Remove()). -/
def removeTagsNode (tags : List Str) : Node → List Node
  | .text s => [.text s]
  | .elem t a cs => if t ∈ tags then [] else [.elem t a (removeTagsNodeL tags cs)]

/-- Tag removal over a forest. -/
def removeTagsNodeL (tags : List Str) : List Node → List Node
  | [] => []
  | n :: ns => removeTagsNode tags n ++ removeTagsNodeL tags ns

end

mutual

/-- Remove figure elements that no longer contain an img descendant. -/
def removeEmptyFiguresNode : Node → List Node
  | .text s => [.text s]
  | .elem t a cs =>
    if t = str "figure" && (findAttrsByTagL (str "img") cs).isEmpty then []
    else [.elem t a (removeEmptyFiguresNodeL cs)]

/-- Empty-figure removal over a forest. -/
def removeEmptyFiguresNodeL : List Node → List Node
  | [] => []
  | n :: ns => removeEmptyFiguresNode n ++ removeEmptyFiguresNodeL ns

end

mutual

/-- Replace every anchor by its contents (the Each loop over a elements in
processContent); nested anchors cannot arise from the HTML parser. -/
def unwrapAnchorsNode : Node → List Node
  | .text s => [.text s]
  | .elem t a cs =>
    if t = str "a" then unwrapAnchorsNodeL cs
    else [.elem t a (unwrapAnchorsNodeL cs)]

/-- Anchor unwrapping over a forest. -/
def unwrapAnchorsNodeL : List Node → List Node
  | [] => []
  | n :: ns => unwrapAnchorsNode n ++ unwrapAnchorsNodeL ns

end

/-- Content rewrite of postprocessing.go processContent after parsing: with
images enabled the three passes run in order, leftover source and picture
elements and empty figures are removed; with images disabled every
image-bearing element is removed; both modes then drop svg elements and
unwrap anchors. -/
def rewriteContentDoc (env : Env) (excludeImages : Bool) (doc : List Node) :
    List Node × Nat :=
  if !excludeImages then
    let r1 := processPictureElements env doc
    let r2 := processImageElements env r1.1
    let r3 := processLoneSourceElements env r2.1
    let d4 := removeTagsNodeL [str "source"] r3.1
    let d5 := removeTagsNodeL [str "picture"] d4
    let d6 := removeEmptyFiguresNodeL d5
    let d7 := removeTagsNodeL [str "svg"] d6
    let d8 := unwrapAnchorsNodeL d7
    (d8, r1.2 + r2.2 + r3.2)
  else
    let d1 := removeTagsNodeL [str "img", str "figure", str "picture", str "source"] doc
    let d7 := removeTagsNodeL [str "svg"] d1
    let d8 := unwrapAnchorsNodeL d7
    (d8, 0)

/-- Failures of processContent: the article HTML fails to parse, or the
rewritten body fails to serialize. -/
inductive ProcessError where
  | parseError
  | serializeError
deriving Repr

/-- postprocessing.go processContent: parse the article content (goquery
NewDocumentFromReader, modelled by the parse argument), rewrite the document,
serialize the body (modelled by the serialize argument); only those two
library calls can fail. -/
def processContent (env : Env) (parse : Str → Option (List Node))
    (serialize : List Node → Option Str) (article : Str) (excludeImages : Bool) :
    Except ProcessError (Str × Nat) :=
  match parse article with
  | none => .error .parseError
  | some contentDoc =>
    let r := rewriteContentDoc env excludeImages contentDoc
    match serialize r.1 with
    | none => .error .serializeError
    | some out => .ok (out, r.2)

/-- Resolver fixture that fails with an error on every call. -/
def demoErrResolver : Str → ResolveReply := fun _ => ⟨[], false, true⟩

/-- Resolver fixture that reports not-found with no error on every call. -/
def demoNotFoundResolver : Str → ResolveReply := fun _ => ⟨[], false, false⟩

/-- Resolver fixture resolving two fixed names to distinct data URIs. -/
def demoTwoResolver : Str → ResolveReply := fun s =>
  if s = str "a.jpg" then ⟨str "data:A", true, false⟩
  else if s = str "b.jpg" then ⟨str "data:B", true, false⟩
  else ⟨[], false, false⟩

/-- Resolver fixture where only b.jpg is resolvable and all else errors. -/
def demoOnlyBResolver : Str → ResolveReply := fun s =>
  if s = str "b.jpg" then ⟨str "data:B", true, false⟩ else ⟨[], false, true⟩

/-- Environment with the erroring resolver. -/
def demoEnvErr : Env := ⟨demoStd, some demoErrResolver, fun _ => none, id⟩

/-- Environment with the not-found resolver. -/
def demoEnvNF : Env := ⟨demoStd, some demoNotFoundResolver, fun _ => none, id⟩

/-- Environment with the two-name resolver. -/
def demoEnvTwo : Env := ⟨demoStd, some demoTwoResolver, fun _ => none, id⟩

/-- Environment with the only-b resolver. -/
def demoEnvOnlyB : Env := ⟨demoStd, some demoOnlyBResolver, fun _ => none, id⟩

/-- Environment with no resolver. -/
def demoEnvNil : Env := ⟨demoStd, none, fun _ => none, id⟩

/-- C7: a per-element resolution failure never causes the rewrite call to
return an error; whenever the article parses and the rewritten body
serializes, processContent returns ok with the serialized body and the image
count, for every resolver behaviour. -/
theorem c7_error_locality :
    ∀ (env : Env) (parse : Str → Option (List Node)) (serialize : List Node → Option Str)
      (article : Str) (excl : Bool) (doc : List Node) (out : Str),
      parse article = some doc →
      serialize (rewriteContentDoc env excl doc).1 = some out →
      processContent env parse serialize article excl =
        .ok (out, (rewriteContentDoc env excl doc).2) := by
  intro env parse serialize article excl doc out h1 h2
  unfold processContent
  rw [h1]
  simp only []
  rw [h2]

/-- C7 witness: with a resolver that errors on every call, a document whose
single img cannot be resolved still processes to ok, the img being removed. -/
theorem c7_witness :
    processContent demoEnvErr
        (fun _ => some [Node.elem (str "img") [(str "src", str "http://e/a.jpg")] []])
        (fun _ => some []) (str "x") false = .ok ([], 0) ∧
    (rewriteContentDoc demoEnvErr false
        [Node.elem (str "img") [(str "src", str "http://e/a.jpg")] []]).1 = [] := by
  refine ⟨?_, rfl⟩
  exact c7_error_locality demoEnvErr
    (fun _ => some [Node.elem (str "img") [(str "src", str "http://e/a.jpg")] []])
    (fun _ => some []) (str "x") false
    [Node.elem (str "img") [(str "src", str "http://e/a.jpg")] []] [] rfl rfl

/-- C8: an img produced by picture-collapsing (hence carrying the processed
marker) is never re-resolved by the img pass - the outcome is the same for
every environment, so the resolver is not consulted - and is not re-stripped:
the pass only removes the marker, leaving src and alt untouched and counting
nothing. -/
theorem c8_marker_idempotent :
    ∀ (env env2 : Env) (imgOpt : Option Attrs) (sources : List Attrs) (attrs : Attrs),
      processOnePicture env imgOpt sources = some attrs →
      processOneImg env2 attrs = (some (removeAttr attrs (str "data-processed")), 0) := by
  intro env env2 imgOpt sources attrs h
  unfold processOnePicture at h
  simp only [] at h
  generalize (match imgOpt with
    | some img => (getAttr img (str "alt")).getD []
    | none => []) = altv at h
  split at h
  · cases h
  · rename_i hne
    split at h
    · cases h
    · rename_i d hfr
      simp only [Option.some.injEq] at h
      subst h
      by_cases halt : altv.isEmpty = true
      · simp +decide [halt, processOneImg, removeImageAttributes, removeAttr, getAttr]
      · simp only [Bool.not_eq_true] at halt
        simp +decide [halt, processOneImg, removeImageAttributes, removeAttr, getAttr]

/-- C8 witness: a picture collapsing an inline data URI produces a marked img,
and the img pass under a hostile (always-erroring) environment only removes
the marker from it. -/
theorem c8_witness :
    processOnePicture demoEnvNil (some [(str "src", str "data:image/x,AA"), (str "alt", str "t")])
        [] =
      some [(str "src", str "data:image/png;base64,AA"), (str "alt", str "t"),
        (str "data-processed", str "1")] ∧
    processOneImg demoEnvErr [(str "src", str "data:image/png;base64,AA"), (str "alt", str "t"),
        (str "data-processed", str "1")] =
      (some (removeAttr [(str "src", str "data:image/png;base64,AA"), (str "alt", str "t"),
        (str "data-processed", str "1")] (str "data-processed")), 0) := by
  refine ⟨rfl, c8_marker_idempotent demoEnvNil demoEnvErr
    (some [(str "src", str "data:image/x,AA"), (str "alt", str "t")]) []
    [(str "src", str "data:image/png;base64,AA"), (str "alt", str "t"),
      (str "data-processed", str "1")] rfl⟩

/-- C1: with images enabled, a lone source whose resolver reports not-found
without an error survives as an img whose src is the empty string, which is
not a data: URI - the lone-source pass discards the found flag, so the
no-dangling-refs invariant the code intends is violated at this input. -/
theorem c1_lone_source_dangling_img :
    rewriteContentDoc demoEnvNF false
        [Node.elem (str "source") [(str "srcset", str "http://e/missing.jpg")] []] =
      ([Node.elem (str "img") [(str "src", [])] []], 1) ∧
    (str "data:").isPrefixOf ([] : Str) = false := ⟨rfl, rfl⟩

/-- C2 counterexample: a lone source with srcset entries of declared widths 1
and 2 where both resolve is converted using the first entry, not the
larger-width entry demanded by the claim - the output src is the first
entry's data URI while the width-best candidate resolves to a different one. -/
theorem c2_counterexample :
    processOneLoneSource demoEnvTwo [(str "srcset", str "a.jpg 1w, b.jpg 2w")] =
      some (str "data:A") ∧
    pickBestFromSrcset (str "a.jpg 1w, b.jpg 2w") = str "b.jpg" ∧
    tryResolve demoEnvTwo (str "b.jpg") = some (str "data:B") ∧
    str "data:A" ≠ str "data:B" := ⟨rfl, rfl, rfl, by decide⟩

/-- First URL field of the first srcset entry of a lone source's effective
srcset string, as the amended claim words it. -/
def loneSourceFirstCandidate (attrs : Attrs) : Option Str :=
  (loneSourceList attrs).map (fun srcset =>
    goTrimSpace ((splitChar ' ' ((splitChar ',' srcset).headD [])).headD []))

/-- Amended behaviour of the orphan-source pass, from the amended claim: the
single candidate is the first entry of the srcset (or the src fallback); an
inline data URI succeeds when re-encoding does; otherwise the element is
removed when no resolver is configured or the resolver errors, and on an
error-free reply the reply's data URL (whatever its found flag) becomes the
replacement img's src. -/
def loneSourceAmendedSpec (env : Env) (attrs : Attrs) : Option Str :=
  match loneSourceFirstCandidate attrs with
  | none => none
  | some firstURL =>
    if (str "data:image/").isPrefixOf firstURL then processBase64ImageData env.g firstURL
    else
      match env.resolver with
      | none => none
      | some resolve =>
        if (resolve firstURL).errored then none else some (resolve firstURL).dataURL

/-- A single-character split never returns the empty list. -/
theorem splitChar_ne_nil (c : Char) (s : Str) : splitChar c s ≠ [] := by
  cases s with
  | nil => simp [splitChar]
  | cons a rest =>
    unfold splitChar
    cases h : splitChar c rest with
    | nil => simp
    | cons t ts =>
      by_cases hac : a = c <;> simp [hac]

/-- C2 amended: the orphan-source pass converts each lone source to an img
carrying the resolution outcome of the first srcset entry (or the src
fallback), removing the element exactly when that single candidate yields an
error or no resolver is configured. -/
theorem c2_amended_first_entry :
    ∀ (env : Env) (attrs : Attrs),
      processOneLoneSource env attrs = loneSourceAmendedSpec env attrs := by
  intro env attrs
  unfold processOneLoneSource loneSourceAmendedSpec loneSourceFirstCandidate
  cases hls : loneSourceList attrs with
  | none => rfl
  | some srcset =>
    simp only [Option.map_some']
    cases hsp : splitChar ',' srcset with
    | nil => exact absurd hsp (splitChar_ne_nil ',' srcset)
    | cons u0 us =>
      simp only [List.headD_cons]

/-- A candidate list from one source string: nothing when empty. -/
def candidateOfString (s : Str) : List Str := if s.isEmpty then [] else [s]

/-- Candidates of one picture source element as the claim words them: the
largest-width srcset selection, then the src. -/
def pictureSourceCandidatesSpec (sa : Attrs) : List Str :=
  (match getAttr sa (str "srcset") with
   | some ss => if ss.isEmpty then [] else candidateOfString (pickBestFromSrcset ss)
   | none => []) ++
  (match getAttr sa (str "src") with
   | some sv => candidateOfString sv
   | none => [])

/-- The claim's fixed priority order of picture candidates: the nested img's
data-attrs URL, then the img's largest-width srcset entry, then the img's src,
then each source's srcset selection or src. -/
def pictureCandidateOrderSpec (env : Env) (imgOpt : Option Attrs) (sources : List Attrs) :
    List Str :=
  (match imgOpt.bind (fun i => getAttr i (str "data-attrs")) with
   | some da => candidateOfString (extractURLFromDataAttrs env da)
   | none => []) ++
  (match imgOpt.bind (fun i => getAttr i (str "srcset")) with
   | some ss => if (goTrimSpace ss).isEmpty then [] else candidateOfString (pickBestFromSrcset ss)
   | none => []) ++
  (match imgOpt.bind (fun i => getAttr i (str "src")) with
   | some sv => candidateOfString sv
   | none => []) ++
  (sources.map pictureSourceCandidatesSpec).flatten

/-- Replacement img attributes as the claim words them: the resolved data URI,
the original alt when non-empty, and the processed marker. -/
def pictureReplacementSpec (dataURL alt : Str) : Attrs :=
  (str "src", dataURL) :: ((if alt.isEmpty then [] else [(str "alt", alt)]) ++
    [(str "data-processed", str "1")])

/-- Original alt text of the collapsed picture: from its first nested img. -/
def pictureAltOf (imgOpt : Option Attrs) : Str :=
  match imgOpt with
  | some img => (getAttr img (str "alt")).getD []
  | none => []

/-- The per-source candidate gather agrees with the claim's wording. -/
theorem pictureSourceCandidates_eq_spec :
    pictureSourceCandidates = pictureSourceCandidatesSpec := by
  funext sa
  unfold pictureSourceCandidates pictureSourceCandidatesSpec candidateOfString
  cases h1 : getAttr sa (str "srcset") with
  | none =>
    cases h2 : getAttr sa (str "src") with
    | none => rfl
    | some sv => by_cases h3 : sv.isEmpty = true <;> simp [h3]
  | some ss =>
    by_cases h3 : ss.isEmpty = true
    · cases h2 : getAttr sa (str "src") with
      | none => simp [h3]
      | some sv => by_cases h4 : sv.isEmpty = true <;> simp [h3, h4]
    · by_cases h5 : (pickBestFromSrcset ss).isEmpty = true
      · cases h2 : getAttr sa (str "src") with
        | none => simp [h3, h5]
        | some sv => by_cases h4 : sv.isEmpty = true <;> simp [h3, h4, h5]
      · cases h2 : getAttr sa (str "src") with
        | none => simp [h3, h5]
        | some sv => by_cases h4 : sv.isEmpty = true <;> simp [h3, h4, h5]

/-- The nested-img candidate gather agrees with the claim's first three
priority groups. -/
theorem pictureImgCandidates_eq_spec (env : Env) (img : Attrs) :
    pictureImgCandidates env img =
      (match getAttr img (str "data-attrs") with
       | some da => candidateOfString (extractURLFromDataAttrs env da)
       | none => []) ++
      (match getAttr img (str "srcset") with
       | some ss =>
         if (goTrimSpace ss).isEmpty then [] else candidateOfString (pickBestFromSrcset ss)
       | none => []) ++
      (match getAttr img (str "src") with
       | some sv => candidateOfString sv
       | none => []) := by
  unfold pictureImgCandidates candidateOfString
  cases h1 : getAttr img (str "data-attrs") with
  | none =>
    cases h2 : getAttr img (str "srcset") with
    | none =>
      cases h3 : getAttr img (str "src") with
      | none => rfl
      | some sv => by_cases h4 : sv.isEmpty = true <;> simp [h4]
    | some ss =>
      by_cases h5 : (goTrimSpace ss).isEmpty = true <;>
        by_cases h6 : (pickBestFromSrcset ss).isEmpty = true <;>
          cases h3 : getAttr img (str "src") with
          | none => simp [h5, h6]
          | some sv => by_cases h4 : sv.isEmpty = true <;> simp [h4, h5, h6]
  | some da =>
    by_cases h7 : (extractURLFromDataAttrs env da).isEmpty = true <;>
      cases h2 : getAttr img (str "srcset") with
      | none =>
        cases h3 : getAttr img (str "src") with
        | none => simp [h7]
        | some sv => by_cases h4 : sv.isEmpty = true <;> simp [h4, h7]
      | some ss =>
        by_cases h5 : (goTrimSpace ss).isEmpty = true <;>
          by_cases h6 : (pickBestFromSrcset ss).isEmpty = true <;>
            cases h3 : getAttr img (str "src") with
            | none => simp [h5, h6, h7]
            | some sv => by_cases h4 : sv.isEmpty = true <;> simp [h4, h5, h6, h7]

/-- Collapsing with an empty candidate list removes the picture either way,
so the gather-then-first-hit semantics matches the source's early exit. -/
theorem firstResolved_match_collapse (env : Env) (l : List Str) (f : Str → Attrs) :
    (if l.isEmpty then none
     else
       match firstResolved env l with
       | none => none
       | some dataURL => some (f dataURL)) = (firstResolved env l).map f := by
  cases l with
  | nil => rfl
  | cons c tl =>
    simp only [List.isEmpty_cons, if_false, Bool.false_eq_true]
    cases h : firstResolved env (c :: tl) <;> simp

/-- C4: for every picture, candidates are gathered and tried in the claim's
fixed priority order, the first resolvable candidate replacing the whole
picture with a single img carrying the resolved data URI, the original alt
when present and the processed marker, and the picture being removed when no
candidate resolves; in particular the two-source scenario with only b.jpg
resolvable collapses to a single img carrying b.jpg's inlined data URI. -/
theorem c4_picture_priority :
    (∀ (env : Env) (imgOpt : Option Attrs) (sources : List Attrs),
      processOnePicture env imgOpt sources =
        (firstResolved env (pictureCandidateOrderSpec env imgOpt sources)).map
          (fun dataURL => pictureReplacementSpec dataURL (pictureAltOf imgOpt))) ∧
    processPictureNode demoEnvOnlyB (Node.elem (str "picture") []
        [Node.elem (str "source") [(str "srcset", str "a.jpg 480w")] [],
         Node.elem (str "source") [(str "srcset", str "b.jpg 800w")] [],
         Node.elem (str "img") [(str "src", str "c.jpg")] []]) =
      ([Node.elem (str "img")
          [(str "src", str "data:B"), (str "data-processed", str "1")] []], 1) := by
  constructor
  · intro env imgOpt sources
    unfold processOnePicture pictureCandidateOrderSpec
    rw [pictureSourceCandidates_eq_spec]
    cases imgOpt with
    | none =>
      simp only [Option.none_bind, List.nil_append]
      rw [firstResolved_match_collapse]
      simp [pictureReplacementSpec, pictureAltOf]
    | some img =>
      simp only [Option.some_bind]
      rw [pictureImgCandidates_eq_spec]
      simp only [List.append_assoc]
      rw [firstResolved_match_collapse]
      simp [pictureReplacementSpec, pictureAltOf]
  · rfl

/-- Removing an attribute makes lookups of that name fail. -/
theorem getAttr_removeAttr_self (l : Attrs) (n : Str) : getAttr (removeAttr l n) n = none := by
  induction l with
  | nil => rfl
  | cons kv tl ih =>
    obtain ⟨k, v⟩ := kv
    by_cases hk : k = n
    · simp [removeAttr, hk, ih]
    · simp [removeAttr, getAttr, hk, ih]

/-- Removing a different attribute does not change a lookup. -/
theorem getAttr_removeAttr_ne (l : Attrs) (n m : Str) (h : n ≠ m) :
    getAttr (removeAttr l m) n = getAttr l n := by
  induction l with
  | nil => rfl
  | cons kv tl ih =>
    obtain ⟨k, v⟩ := kv
    by_cases hk : k = m
    · subst hk
      simp [removeAttr, getAttr, Ne.symm h, ih]
    · by_cases hkn : k = n
      · simp [removeAttr, getAttr, hk, hkn, h]
      · simp [removeAttr, getAttr, hk, hkn, ih]

/-- Setting a different attribute does not change a lookup. -/
theorem getAttr_setAttr_ne (l : Attrs) (n m v : Str) (h : n ≠ m) :
    getAttr (setAttr l m v) n = getAttr l n := by
  induction l with
  | nil => simp [setAttr, getAttr, Ne.symm h]
  | cons kv tl ih =>
    obtain ⟨k, w⟩ := kv
    by_cases hk : k = m
    · subst hk
      simp [setAttr, getAttr, Ne.symm h]
    · by_cases hkn : k = n
      · simp [setAttr, getAttr, hk, hkn, h]
      · simp [setAttr, getAttr, hk, hkn, ih]

/-- The attribute stripping never touches the processed marker. -/
theorem getAttr_removeImageAttributes_marker (l : Attrs) :
    getAttr (removeImageAttributes l) (str "data-processed") =
      getAttr l (str "data-processed") := by
  unfold removeImageAttributes
  rw [getAttr_removeAttr_ne _ _ _ (by decide), getAttr_removeAttr_ne _ _ _ (by decide),
    getAttr_removeAttr_ne _ _ _ (by decide), getAttr_removeAttr_ne _ _ _ (by decide),
    getAttr_removeAttr_ne _ _ _ (by decide), getAttr_removeAttr_ne _ _ _ (by decide),
    getAttr_removeAttr_ne _ _ _ (by decide), getAttr_removeAttr_ne _ _ _ (by decide),
    getAttr_removeAttr_ne _ _ _ (by decide), getAttr_removeAttr_ne _ _ _ (by decide),
    getAttr_removeAttr_ne _ _ _ (by decide)]

mutual

/-- No img in the tree carries the exact processed marker, as read by
attribute lookup. -/
def imgMarkerFree : Node → Bool
  | .text _ => true
  | .elem t a cs =>
    (if t = str "img" then decide (getAttr a (str "data-processed") ≠ some (str "1"))
     else true) && imgMarkerFreeL cs

/-- Marker freedom over a forest. -/
def imgMarkerFreeL : List Node → Bool
  | [] => true
  | n :: ns => imgMarkerFree n && imgMarkerFreeL ns

end

/-- Marker freedom distributes over append. -/
theorem imgMarkerFreeL_append (a b : List Node) :
    imgMarkerFreeL (a ++ b) = (imgMarkerFreeL a && imgMarkerFreeL b) := by
  induction a with
  | nil => simp [imgMarkerFreeL]
  | cons n ns ih => simp [imgMarkerFreeL, ih, Bool.and_assoc]

/-- An img kept by the img pass does not carry the exact marker: the marker
branch removes it and the resolve branch requires its absence. -/
theorem processOneImg_markerFree (env : Env) (a : Attrs) (o : Attrs) (k : Nat)
    (h : processOneImg env a = (some o, k)) :
    getAttr o (str "data-processed") ≠ some (str "1") := by
  unfold processOneImg at h
  by_cases hm : getAttr a (str "data-processed") = some (str "1")
  · rw [if_pos hm] at h
    simp only [Prod.mk.injEq, Option.some.injEq] at h
    rw [← h.1, getAttr_removeAttr_self]
    simp
  · rw [if_neg hm] at h
    simp only [] at h
    split at h
    · simp at h
    · split at h
      · simp at h
      · rename_i d hfr
        simp only [Prod.mk.injEq, Option.some.injEq] at h
        rw [← h.1, getAttr_removeImageAttributes_marker, getAttr_setAttr_ne _ _ _ _ (by decide)]
        exact hm

mutual

/-- The img pass leaves no img carrying the exact marker. -/
theorem processImageNode_markerFree (env : Env) (n : Node) :
    imgMarkerFreeL (processImageNode env n).1 = true := by
  cases n with
  | text s => rfl
  | elem t a cs =>
    unfold processImageNode
    by_cases ht : t = str "img"
    · rw [if_pos ht]
      cases ho : processOneImg env a with
      | mk oAttrs k =>
        cases oAttrs with
        | none => rfl
        | some newAttrs =>
          simp only [imgMarkerFreeL, imgMarkerFree, ht, if_pos, List.append_nil]
          rw [processImageNodeL_markerFree env cs]
          simp [processOneImg_markerFree env a newAttrs k ho]
    · rw [if_neg ht]
      simp only [imgMarkerFreeL, imgMarkerFree, ht, if_neg, List.append_nil]
      rw [processImageNodeL_markerFree env cs]
      simp [ht]

/-- The img pass over a forest leaves no img carrying the exact marker. -/
theorem processImageNodeL_markerFree (env : Env) (ns : List Node) :
    imgMarkerFreeL (processImageNodeL env ns).1 = true := by
  cases ns with
  | nil => rfl
  | cons n tl =>
    unfold processImageNodeL
    rw [imgMarkerFreeL_append, processImageNode_markerFree env n,
      processImageNodeL_markerFree env tl]
    rfl

end

/-- The per-node marker condition follows from the conjunct recorded for an
element. -/
theorem marker_head_cond (t : Str) (a : Attrs)
    (h : (if t = str "img" then decide (getAttr a (str "data-processed") ≠ some (str "1"))
      else true) = true) :
    ¬t = str "img" ∨ ¬getAttr a (str "data-processed") = some (str "1") := by
  by_cases ht : t = str "img"
  · rw [if_pos ht] at h
    exact Or.inr (by simpa using h)
  · exact Or.inl ht

mutual

/-- The lone-source pass preserves marker freedom: replacements carry no
marker and skipped subtrees are unchanged. -/
theorem processLoneSourceNode_markerFree (env : Env) (flag : Bool) (n : Node)
    (h : imgMarkerFree n = true) :
    imgMarkerFreeL (processLoneSourceNode env flag n).1 = true := by
  cases n with
  | text s => rfl
  | elem t a cs =>
    unfold processLoneSourceNode
    simp only [imgMarkerFree, Bool.and_eq_true] at h
    by_cases ht : t = str "source"
    · rw [if_pos ht]
      cases flag with
      | true =>
        subst ht
        simp only [if_pos]
        simp [imgMarkerFreeL, imgMarkerFree, h.2]
        exact Or.inl (by decide)
      | false =>
        simp only [Bool.false_eq_true, if_neg]
        cases hls : processOneLoneSource env a with
        | none => rfl
        | some d =>
          simp [imgMarkerFreeL, imgMarkerFree, getAttr]
          exact Or.inl (by decide)
    · rw [if_neg ht]
      simp [imgMarkerFreeL, imgMarkerFree, h.1, processLoneSourceNodeL_markerFree env
        (flag || decide (t = str "picture")) cs h.2]
      exact marker_head_cond t a h.1

/-- Forest version of lone-source marker preservation. -/
theorem processLoneSourceNodeL_markerFree (env : Env) (flag : Bool) (ns : List Node)
    (h : imgMarkerFreeL ns = true) :
    imgMarkerFreeL (processLoneSourceNodeL env flag ns).1 = true := by
  cases ns with
  | nil => rfl
  | cons n tl =>
    unfold processLoneSourceNodeL
    simp only [imgMarkerFreeL, Bool.and_eq_true] at h
    rw [imgMarkerFreeL_append, processLoneSourceNode_markerFree env flag n h.1,
      processLoneSourceNodeL_markerFree env flag tl h.2]
    rfl

end

mutual

/-- Tag removal preserves marker freedom. -/
theorem removeTagsNode_markerFree (tags : List Str) (n : Node)
    (h : imgMarkerFree n = true) :
    imgMarkerFreeL (removeTagsNode tags n) = true := by
  cases n with
  | text s => rfl
  | elem t a cs =>
    unfold removeTagsNode
    simp only [imgMarkerFree, Bool.and_eq_true] at h
    by_cases ht : t ∈ tags
    · rw [if_pos ht]
      rfl
    · rw [if_neg ht]
      simp [imgMarkerFreeL, imgMarkerFree, h.1, removeTagsNodeL_markerFree tags cs h.2]
      exact marker_head_cond t a h.1

/-- Forest version of tag-removal marker preservation. -/
theorem removeTagsNodeL_markerFree (tags : List Str) (ns : List Node)
    (h : imgMarkerFreeL ns = true) :
    imgMarkerFreeL (removeTagsNodeL tags ns) = true := by
  cases ns with
  | nil => rfl
  | cons n tl =>
    unfold removeTagsNodeL
    simp only [imgMarkerFreeL, Bool.and_eq_true] at h
    rw [imgMarkerFreeL_append, removeTagsNode_markerFree tags n h.1,
      removeTagsNodeL_markerFree tags tl h.2]
    rfl

end

mutual

/-- Empty-figure removal preserves marker freedom. -/
theorem removeEmptyFiguresNode_markerFree (n : Node) (h : imgMarkerFree n = true) :
    imgMarkerFreeL (removeEmptyFiguresNode n) = true := by
  cases n with
  | text s => rfl
  | elem t a cs =>
    unfold removeEmptyFiguresNode
    simp only [imgMarkerFree, Bool.and_eq_true] at h
    by_cases ht : (t = str "figure" && (findAttrsByTagL (str "img") cs).isEmpty) = true
    · rw [if_pos ht]
      rfl
    · rw [if_neg ht]
      simp [imgMarkerFreeL, imgMarkerFree, h.1, removeEmptyFiguresNodeL_markerFree cs h.2]
      exact marker_head_cond t a h.1

/-- Forest version of empty-figure marker preservation. -/
theorem removeEmptyFiguresNodeL_markerFree (ns : List Node)
    (h : imgMarkerFreeL ns = true) :
    imgMarkerFreeL (removeEmptyFiguresNodeL ns) = true := by
  cases ns with
  | nil => rfl
  | cons n tl =>
    unfold removeEmptyFiguresNodeL
    simp only [imgMarkerFreeL, Bool.and_eq_true] at h
    rw [imgMarkerFreeL_append, removeEmptyFiguresNode_markerFree n h.1,
      removeEmptyFiguresNodeL_markerFree tl h.2]
    rfl

end

mutual

/-- Anchor unwrapping preserves marker freedom. -/
theorem unwrapAnchorsNode_markerFree (n : Node) (h : imgMarkerFree n = true) :
    imgMarkerFreeL (unwrapAnchorsNode n) = true := by
  cases n with
  | text s => rfl
  | elem t a cs =>
    unfold unwrapAnchorsNode
    simp only [imgMarkerFree, Bool.and_eq_true] at h
    by_cases ht : t = str "a"
    · rw [if_pos ht]
      exact unwrapAnchorsNodeL_markerFree cs h.2
    · rw [if_neg ht]
      simp [imgMarkerFreeL, imgMarkerFree, h.1, unwrapAnchorsNodeL_markerFree cs h.2]
      exact marker_head_cond t a h.1

/-- Forest version of anchor-unwrap marker preservation. -/
theorem unwrapAnchorsNodeL_markerFree (ns : List Node) (h : imgMarkerFreeL ns = true) :
    imgMarkerFreeL (unwrapAnchorsNodeL ns) = true := by
  cases ns with
  | nil => rfl
  | cons n tl =>
    unfold unwrapAnchorsNodeL
    simp only [imgMarkerFreeL, Bool.and_eq_true] at h
    rw [imgMarkerFreeL_append, unwrapAnchorsNode_markerFree n h.1,
      unwrapAnchorsNodeL_markerFree tl h.2]
    rfl

end

/-- C10 counterexample: the output can carry data-processed attributes - a div
with the marker passes through untouched, and an img whose data-processed
value is not the exact marker keeps the attribute after a successful resolve -
so the claim that no element of the output carries the attribute fails. -/
theorem c10_counterexample :
    rewriteContentDoc demoEnvNF false
        [Node.elem (str "div") [(str "data-processed", str "1")] []] =
      ([Node.elem (str "div") [(str "data-processed", str "1")] []], 0) ∧
    rewriteContentDoc demoEnvTwo false
        [Node.elem (str "img") [(str "data-processed", str "2"), (str "src", str "a.jpg")] []] =
      ([Node.elem (str "img")
          [(str "data-processed", str "2"), (str "src", str "data:A")] []], 1) := ⟨rfl, rfl⟩

/-- C10 amended: for every document processed with images enabled, no img in
the output carries the exact data-processed marker as read by attribute
lookup - the img pass removes it from every img bearing it and later passes
only create unmarked imgs or keep existing nodes. -/
theorem c10_amended_no_marker :
    ∀ (env : Env) (doc : List Node),
      imgMarkerFreeL (rewriteContentDoc env false doc).1 = true := by
  intro env doc
  unfold rewriteContentDoc processPictureElements processImageElements processLoneSourceElements
  simp only [Bool.not_false, if_pos]
  apply unwrapAnchorsNodeL_markerFree
  apply removeTagsNodeL_markerFree
  apply removeEmptyFiguresNodeL_markerFree
  apply removeTagsNodeL_markerFree
  apply removeTagsNodeL_markerFree
  apply processLoneSourceNodeL_markerFree
  apply processImageNodeL_markerFree
